import Mathlib

/-!
Verification of the Chain Statistics Engine of the mochimap API
(`src/apiResponder.js`, `Responder.chain`), shallowly embedded in Lean.

External collaborators (the Economic Model functions `blockReward` and
`projectedSupply` from `apiUtils.js`, and the Baseline Store query
`Db.findOne('block', ...)`) are parameters of the embedded engine, matching
the interface contracts of the specification.  Machine numbers are modelled
as `Nat`/`Int` (BigInt and integral JS Numbers in the source), and the
floating-point results of the derived-metric divisions as an extended
rational type `JSNum` so that division by zero is total and produces the
infinite / not-a-number values JavaScript produces.
-/

namespace Mochimap

/-- A decoded block trailer record, with the fields `Responder.chain`
consumes (`bnum`, `bhash`, `phash`, `mroot`, `nonce`, `mfee`, `tcount`,
`difficulty`, `time0`, `stime`).  Opaque byte strings (`bhash` etc.) are
modelled as natural-number identities. -/
structure Trailer where
  bnum : Nat
  bhash : Nat
  phash : Nat
  mroot : Nat
  nonce : Nat
  mfee : Nat
  tcount : Nat
  difficulty : Nat
  time0 : Nat
  stime : Nat
  deriving Repr, DecidableEq

/-- The accumulator variables of the backward scan, as initialised in
`Responder.chain` lines 116-123. -/
structure Acc where
  rewards : Nat
  pseudorate : Nat
  nonNeogenesis : Nat
  transactions : Nat
  blockTimes : Int
  hashesTimes : Int
  hashes : Nat
  difficulties : Nat
  deriving Repr, DecidableEq

/-- The all-zero initial accumulator. -/
def Acc.init : Acc :=
  ⟨0, 0, 0, 0, 0, 0, 0, 0⟩

/-- Componentwise sum of accumulators, used to state how a scan extends
the accumulator it starts from. -/
def Acc.add (a b : Acc) : Acc :=
  ⟨a.rewards + b.rewards, a.pseudorate + b.pseudorate,
   a.nonNeogenesis + b.nonNeogenesis, a.transactions + b.transactions,
   a.blockTimes + b.blockTimes, a.hashesTimes + b.hashesTimes,
   a.hashes + b.hashes, a.difficulties + b.difficulties⟩

/-- The `chain = { maxsupply, supply }` object created when a neogenesis
baseline lookup succeeds. -/
structure ChainSupply where
  maxsupply : Int
  supply : Int
  deriving Repr, DecidableEq

/-- State of one backward scan: the accumulator, the optional
`chain` supply object (`supply` is defined in the source exactly when
`chain` is), and a ghost counter of Baseline Store lookups performed
(not present in the source; used only to state lookup-count properties). -/
structure ScanState where
  acc : Acc
  chain : Option ChainSupply
  nLookups : Nat
  deriving Repr, DecidableEq

/-- Initial scan state. -/
def ScanState.init : ScanState :=
  ⟨Acc.init, none, 0⟩

/-- The result of one `Db.findOne('block', ...)` baseline query:
`none` models a missing record (or a query error, which the source
swallows); `some none` a record without an `amount` field; `some (some a)`
a record whose `amount` is `a`. -/
abbrev LookupResult := Option (Option Nat)

/-- One iteration of the scan loop (`Responder.chain` lines 125-153) on a
single trailer `t`, given the Economic Model `br` (blockReward) and `ps`
(projectedSupply, `none` argument meaning the theoretical final supply),
the Baseline Store `lk` keyed by `(bnum, bhash)`, and the block number
`rbnum` of the newest (requested) trailer of the window. -/
def scanStep (br : Nat → Nat) (ps : Option Nat → Int)
    (lk : Nat → Nat → LookupResult) (rbnum : Nat)
    (st : ScanState) (t : Trailer) : ScanState :=
  if t.bnum % 256 ≠ 0 then
    -- NON-(NEO)GENESIS block type
    let dT : Int := (t.stime : Int) - (t.time0 : Int)
    let acc := { st.acc with
                 difficulties := st.acc.difficulties + t.difficulty
                 blockTimes := st.acc.blockTimes + dT
                 nonNeogenesis := st.acc.nonNeogenesis + 1 }
    if t.tcount ≠ 0 then
      -- NORMAL block type
      { st with acc := { acc with
                         transactions := acc.transactions + t.tcount
                         hashesTimes := acc.hashesTimes + dT
                         hashes := acc.hashes + 2 ^ t.difficulty
                         rewards := acc.rewards + (br t.bnum + t.mfee * t.tcount) } }
    else
      -- PSEUDO block type
      { st with acc := { acc with pseudorate := acc.pseudorate + 1 } }
  else if st.chain.isNone then
    -- (NEO)GENESIS block type: attempt the baseline lookup
    let st := { st with nLookups := st.nLookups + 1 }
    match lk t.bnum t.bhash with
    | some (some a) =>
      if a ≠ 0 then
        let supply : Int := (a : Int) + (st.acc.rewards : Int)
        let lostsupply : Int := ps (some rbnum) - supply
        let maxsupply : Int := ps none - lostsupply
        { st with chain := some ⟨maxsupply, supply⟩ }
      else st
    | _ => st
  else st

/-- The scan loop over a list of trailers already ordered newest-first. -/
def scanList (br : Nat → Nat) (ps : Option Nat → Int)
    (lk : Nat → Nat → LookupResult) (rbnum : Nat)
    (st : ScanState) : List Trailer → ScanState
  | [] => st
  | t :: ts => scanList br ps lk rbnum (scanStep br ps lk rbnum st t) ts

/-- The full backward scan of a window `w` given newest-last (the order of
the decoded tfile): indices are walked from `tfileCount - 1` down to `0`,
i.e. newest to oldest. -/
def scan (br : Nat → Nat) (ps : Option Nat → Int)
    (lk : Nat → Nat → LookupResult) (rbnum : Nat)
    (w : List Trailer) : ScanState :=
  scanList br ps lk rbnum ScanState.init w.reverse

/-- Extended JavaScript number: a finite rational, positive or negative
infinity, or not-a-number. -/
inductive JSNum where
  | num : ℚ → JSNum
  | inf : JSNum
  | negInf : JSNum
  | nan : JSNum
  deriving Repr, DecidableEq

/-- JavaScript division of two finite numbers: a nonzero denominator gives
the exact quotient; a zero denominator gives positive infinity, negative
infinity or NaN according to the sign of the numerator.  All divisions in
`Responder.chain` have finite operands. -/
def jsDivQ (x y : ℚ) : JSNum :=
  if y = 0 then
    if 0 < x then JSNum.inf else if x < 0 then JSNum.negInf else JSNum.nan
  else JSNum.num (x / y)

/-- Modelled from the spec: the `round` helper imported from
`apiUtils.js`, a file of this repository that is not under `src/`.  The
spec treats it as rounding to the nearest numeric value and requires
non-finite inputs (infinite / not-a-number) to be passed through
unchanged, as `Math.round` does. -/
def jsRound : JSNum → JSNum
  | JSNum.num q => JSNum.num (((q + 1/2).floor : ℤ) : ℚ)
  | x => x

/-- The statistics object assembled at `Responder.chain` lines 154-183
(the optional `haiku` field, a decoration of the nonce produced by an
out-of-scope collaborator, is omitted). -/
structure StatsResult where
  bhash : Nat
  phash : Nat
  mroot : Nat
  nonce : Nat
  bnum : Nat
  mfee : Nat
  time0 : Nat
  stime : Nat
  blocktime : Int
  blocktime_avg : JSNum
  tcount : Nat
  tcount_avg : JSNum
  tcountpsec : JSNum
  tcountpsec_avg : JSNum
  txfees : Nat
  reward : Nat
  mreward : Nat
  difficulty : Nat
  difficulty_avg : JSNum
  hashrate : JSNum
  hashrate_avg : JSNum
  pseudorate_avg : JSNum
  supply : Int
  maxsupply : Int
  deriving Repr, DecidableEq

/-- The derived-metric computation (`Responder.chain` lines 155-183) from
the newest trailer `rT`, the final accumulator and the supply object. -/
def mkStats (br : Nat → Nat) (rT : Trailer) (acc : Acc)
    (cs : ChainSupply) : StatsResult :=
  let isNeogenesis : Bool := rT.bnum % 256 == 0
  let blocktime : Int := if isNeogenesis then 0 else (rT.stime : Int) - (rT.time0 : Int)
  let txfees : Nat := if isNeogenesis then 0 else rT.tcount * rT.mfee
  let reward : Nat := if isNeogenesis then 0 else br rT.bnum
  { bhash := rT.bhash
    phash := rT.phash
    mroot := rT.mroot
    nonce := rT.nonce
    bnum := rT.bnum
    mfee := rT.mfee
    time0 := rT.time0
    stime := rT.stime
    blocktime := blocktime
    blocktime_avg := jsRound (jsDivQ (acc.blockTimes : ℚ) (acc.nonNeogenesis : ℚ))
    tcount := rT.tcount
    tcount_avg := jsRound (jsDivQ (acc.transactions : ℚ) (acc.nonNeogenesis : ℚ))
    tcountpsec := jsRound (jsDivQ (rT.tcount : ℚ) (blocktime : ℚ))
    tcountpsec_avg := jsRound (jsDivQ (acc.transactions : ℚ) (acc.blockTimes : ℚ))
    txfees := txfees
    reward := reward
    mreward := if isNeogenesis then 0 else txfees + reward
    difficulty := rT.difficulty
    difficulty_avg := jsRound (jsDivQ (acc.difficulties : ℚ) (acc.nonNeogenesis : ℚ))
    hashrate := if rT.tcount = 0 then JSNum.num 0
      else jsRound (jsDivQ ((2 ^ rT.difficulty : Nat) : ℚ) (blocktime : ℚ))
    hashrate_avg := jsRound (jsDivQ (acc.hashes : ℚ) (acc.hashesTimes : ℚ))
    pseudorate_avg := jsRound (jsDivQ (acc.pseudorate : ℚ) (acc.nonNeogenesis : ℚ))
    supply := cs.supply
    maxsupply := cs.maxsupply }

/-- The Chain Statistics Engine on an already fetched and decoded window
`w` (newest-last) for request `blockNumber` (negative meaning relative),
returning the optional statistics object together with the ghost count of
baseline lookups performed.  `none` is the `Unavailable` outcome (the
transport layer then answers 404 "chain data unavailable").  The guard
mirrors `Responder.chain` lines 110-113: for an absolute request the
newest trailer's block number must equal the request. -/
def computeStatsFull (br : Nat → Nat) (ps : Option Nat → Int)
    (lk : Nat → Nat → LookupResult) (blockNumber : Int)
    (w : List Trailer) : Option StatsResult × Nat :=
  match w.getLast? with
  | none => (none, 0)
  | some rT =>
    if blockNumber < 0 ∨ blockNumber = (rT.bnum : Int) then
      let st := scan br ps lk rT.bnum w
      (st.chain.map (fun cs => mkStats br rT st.acc cs), st.nLookups)
    else (none, 0)

/-- The engine's visible result, dropping the ghost lookup counter. -/
def computeStats (br : Nat → Nat) (ps : Option Nat → Int)
    (lk : Nat → Nat → LookupResult) (blockNumber : Int)
    (w : List Trailer) : Option StatsResult :=
  (computeStatsFull br ps lk blockNumber w).1

/-- The Window Resolver (`Responder.chain` lines 101-108): from the
optional requested block number (after `Number` conversion; `none` when
the request carried no position) compute the `(count, start)` parameters
of the partial tfile to fetch, with maximum window size `target = 768`. -/
def resolveWindow (blockNumber : Option Int) : Nat × Int :=
  let target : Int := 768
  let bn : Int := blockNumber.getD (-target)
  let count : Nat := if bn < target then bn.natAbs + 1 else 768
  let start : Int := if bn > -1 then bn - ((count : Int) - 1) else bn
  (count, start)

/-- A trailer is a (neo)genesis / epoch-boundary record when the low 8 bits
of its block number are zero. -/
def isNeogen (t : Trailer) : Bool :=
  t.bnum % 256 == 0

/-- A pseudo record: non-boundary with zero transactions. -/
def isPseudo (t : Trailer) : Bool :=
  !isNeogen t && t.tcount == 0

/-- A normal record: non-boundary with at least one transaction. -/
def isNormal (t : Trailer) : Bool :=
  !isNeogen t && t.tcount != 0

/-- Sum over the normal records of `l` of `blockReward(bnum) +
mfee * tcount`; pseudo and boundary records contribute nothing. -/
def normalRewardSum (br : Nat → Nat) (l : List Trailer) : Nat :=
  (l.map fun t => if isNormal t then br t.bnum + t.mfee * t.tcount else 0).sum

/-- The closed-form value of the accumulator after scanning the records of
`l` from the all-zero initial accumulator: per-class sums and counts. -/
def accOf (br : Nat → Nat) (l : List Trailer) : Acc :=
  { rewards := normalRewardSum br l
    pseudorate := l.countP isPseudo
    nonNeogenesis := l.countP (fun t => !isNeogen t)
    transactions := (l.map fun t => if isNormal t then t.tcount else 0).sum
    blockTimes := (l.map fun t =>
      if isNeogen t then 0 else (t.stime : Int) - (t.time0 : Int)).sum
    hashesTimes := (l.map fun t =>
      if isNormal t then (t.stime : Int) - (t.time0 : Int) else 0).sum
    hashes := (l.map fun t => if isNormal t then 2 ^ t.difficulty else 0).sum
    difficulties := (l.map fun t => if isNeogen t then 0 else t.difficulty).sum }

/-- A baseline lookup result is accepted by the engine exactly when a
record was found and its `amount` field is present and nonzero
(`if (ng && ng.amount)` in the source); this function extracts the
accepted amount. -/
def lookupOk : LookupResult → Option Nat
  | some (some a) => if a ≠ 0 then some a else none
  | _ => none


/-! ### Concrete fixtures for closed-instance checks -/

/-- Concrete example reward function. -/
def brFix : Nat → Nat := fun n => n + 1

/-- Concrete example projected-supply function: theoretical final supply
100, projected supply 40 at every explicit position. -/
def psFix : Option Nat → Int := fun o => match o with
  | none => 100
  | some _ => 40

/-- Concrete example Baseline Store: the boundary block keyed by block
number 256 and hash 7 has recorded amount 10; every other key is absent. -/
def lkFix : Nat → Nat → LookupResult := fun b h =>
  if b = 256 ∧ h = 7 then some (some 10) else none

/-- A Baseline Store in which every lookup fails. -/
def lkNone : Nat → Nat → LookupResult := fun _ _ => none

/-- Example epoch-boundary trailer at block 256. -/
def tNeo : Trailer := ⟨256, 7, 1, 2, 3, 0, 0, 3, 50, 50⟩

/-- Example normal trailer at block 257. -/
def tNorm : Trailer := ⟨257, 8, 1, 2, 3, 2, 5, 2, 100, 110⟩

/-- Example pseudo trailer at block 258. -/
def tPseudo : Trailer := ⟨258, 9, 1, 2, 3, 0, 0, 2, 110, 115⟩

/-- Example normal trailer at block 255, older than the 256 boundary. -/
def tOld : Trailer := ⟨255, 6, 1, 2, 3, 3, 4, 1, 90, 95⟩

/-- Consecutive-window fixtures at blocks 254, 255, 256. -/
def t254 : Trailer := ⟨254, 4, 1, 2, 3, 1, 2, 1, 10, 12⟩

/-- Second consecutive-window fixture. -/
def t255 : Trailer := ⟨255, 5, 1, 2, 3, 0, 0, 1, 12, 15⟩

/-- Third consecutive-window fixture, an epoch boundary. -/
def t256 : Trailer := ⟨256, 6, 1, 2, 3, 0, 0, 1, 15, 15⟩

/-! ### Structural lemmas about the scan -/

section ScanLemmas

variable {br : Nat → Nat} {ps : Option Nat → Int} {lk : Nat → Nat → LookupResult} {rb : Nat}

theorem Acc.init_add (a : Acc) : Acc.init.add a = a := by
  simp [Acc.add, Acc.init]

theorem Acc.add_init (a : Acc) : a.add Acc.init = a := by
  simp [Acc.add, Acc.init]

theorem Acc.add_assoc (a b c : Acc) : (a.add b).add c = a.add (b.add c) := by
  simp [Acc.add, Nat.add_assoc, Int.add_assoc]

theorem accOf_nil : accOf br [] = Acc.init := by
  simp [accOf, Acc.init, normalRewardSum]

theorem accOf_cons (t : Trailer) (ts : List Trailer) :
    accOf br (t :: ts) = (accOf br [t]).add (accOf br ts) := by
  simp only [accOf, Acc.add, normalRewardSum, List.map_cons, List.map_nil,
    List.sum_cons, List.sum_nil, List.countP_cons, List.countP_nil, Acc.mk.injEq]
  refine ⟨by omega, by omega, by omega, by omega, by omega, by omega, by omega, by omega⟩

theorem scanStep_acc (st : ScanState) (t : Trailer) :
    (scanStep br ps lk rb st t).acc = st.acc.add (accOf br [t]) := by
  unfold scanStep
  by_cases hb : t.bnum % 256 = 0
  · simp only [hb, ne_eq, not_true_eq_false, if_false]
    have hneo : isNeogen t = true := by simp [isNeogen, hb]
    split
    · split
      · split
        · simp [accOf, Acc.add, normalRewardSum, isPseudo, isNormal, hneo]
        · simp [accOf, Acc.add, normalRewardSum, isPseudo, isNormal, hneo]
      · simp [accOf, Acc.add, normalRewardSum, isPseudo, isNormal, hneo]
    · simp [accOf, Acc.add, normalRewardSum, isPseudo, isNormal, hneo]
  · have hneo : isNeogen t = false := by simp [isNeogen, hb]
    simp only [ne_eq, hb, not_false_eq_true, if_true]
    by_cases ht : t.tcount = 0
    · simp [ht, accOf, Acc.add, normalRewardSum, isPseudo, isNormal, hneo]
    · simp [ht, accOf, Acc.add, normalRewardSum, isPseudo, isNormal, hneo]

theorem scanList_acc (l : List Trailer) : ∀ st : ScanState,
    (scanList br ps lk rb st l).acc = st.acc.add (accOf br l) := by
  induction l with
  | nil => intro st; simp [scanList, accOf_nil, Acc.add_init]
  | cons t ts ih =>
    intro st
    rw [scanList, ih, scanStep_acc, accOf_cons t ts, Acc.add_assoc]

theorem accOf_reverse (l : List Trailer) : accOf br l.reverse = accOf br l := by
  simp [accOf, normalRewardSum, List.countP_reverse, List.map_reverse, List.sum_reverse]

theorem scan_acc (w : List Trailer) : (scan br ps lk rb w).acc = accOf br w := by
  rw [scan, scanList_acc, accOf_reverse, ScanState.init, Acc.init_add]

theorem scanStep_chain_some (st : ScanState) (t : Trailer) {c : ChainSupply}
    (h : st.chain = some c) :
    (scanStep br ps lk rb st t).chain = some c ∧
    (scanStep br ps lk rb st t).nLookups = st.nLookups := by
  have hn : st.chain.isNone = false := by rw [h]; rfl
  unfold scanStep
  simp only [hn, Bool.false_eq_true, if_false]
  split
  · split <;> simp [h]
  · simp [h]

theorem scanList_chain_some (l : List Trailer) : ∀ st : ScanState, ∀ c : ChainSupply,
    st.chain = some c →
    (scanList br ps lk rb st l).chain = some c ∧
    (scanList br ps lk rb st l).nLookups = st.nLookups := by
  induction l with
  | nil => intro st c h; simp [scanList, h]
  | cons t ts ih =>
    intro st c h
    rw [scanList]
    obtain ⟨h1, h2⟩ := scanStep_chain_some st t h
    obtain ⟨h3, h4⟩ := ih _ c h1
    exact ⟨h3, by omega⟩

theorem lookupOk_eq_none_iff (r : LookupResult) :
    lookupOk r = none ↔ (r = none ∨ r = some none ∨ r = some (some 0)) := by
  rcases r with _ | (_ | a) <;> simp [lookupOk]

theorem scanStep_neogen_fail (st : ScanState) (t : Trailer)
    (hb : t.bnum % 256 = 0) (hc : st.chain = none)
    (hf : lookupOk (lk t.bnum t.bhash) = none) :
    scanStep br ps lk rb st t = { st with nLookups := st.nLookups + 1 } := by
  unfold scanStep
  simp only [hb, ne_eq, not_true_eq_false, if_false, hc, Option.isNone_none, if_true]
  rcases (lookupOk_eq_none_iff _).mp hf with h | h | h <;> simp [h]

theorem scanStep_neogen_succ (st : ScanState) (t : Trailer) {a : Nat}
    (hb : t.bnum % 256 = 0) (hc : st.chain = none)
    (hf : lookupOk (lk t.bnum t.bhash) = some a) :
    scanStep br ps lk rb st t =
      { st with
        chain := some ⟨ps none - (ps (some rb) - ((a : Int) + (st.acc.rewards : Int))),
                       (a : Int) + (st.acc.rewards : Int)⟩
        nLookups := st.nLookups + 1 } := by
  unfold scanStep
  simp only [hb, ne_eq, not_true_eq_false, if_false, hc, Option.isNone_none, if_true]
  rcases hr : lk t.bnum t.bhash with _ | (_ | a') <;> rw [hr] at hf <;> simp [lookupOk] at hf
  rcases hf with ⟨ha', ha⟩
  subst ha
  simp [ha']

theorem scanList_fail (l : List Trailer) : ∀ st : ScanState,
    (∀ t ∈ l, isNeogen t = true → lookupOk (lk t.bnum t.bhash) = none) →
    st.chain = none →
    (scanList br ps lk rb st l).chain = none ∧
    (scanList br ps lk rb st l).nLookups = st.nLookups + l.countP isNeogen := by
  induction l with
  | nil => intro st _ hc; simp [scanList, hc]
  | cons t ts ih =>
    intro st hf hc
    rw [scanList]
    by_cases hb : t.bnum % 256 = 0
    · have hneo : isNeogen t = true := by simp [isNeogen, hb]
      have hfail := hf t (by simp) hneo
      rw [scanStep_neogen_fail st t hb hc hfail]
      obtain ⟨h1, h2⟩ := ih { st with nLookups := st.nLookups + 1 }
        (fun u hu => hf u (by simp [hu])) (by simp [hc])
      refine ⟨h1, ?_⟩
      rw [h2, List.countP_cons, hneo]
      simp
      omega
    · have hneo : isNeogen t = false := by simp [isNeogen, hb]
      have hstep : (scanStep br ps lk rb st t).chain = st.chain ∧
          (scanStep br ps lk rb st t).nLookups = st.nLookups := by
        unfold scanStep
        simp only [hb, ne_eq, not_false_eq_true, if_true]
        split <;> simp
      obtain ⟨h1, h2⟩ := ih (scanStep br ps lk rb st t)
        (fun u hu => hf u (by simp [hu])) (by rw [hstep.1, hc])
      refine ⟨h1, ?_⟩
      rw [h2, hstep.2, List.countP_cons, hneo]
      simp

theorem scanList_append (l1 l2 : List Trailer) : ∀ st : ScanState,
    scanList br ps lk rb st (l1 ++ l2) = scanList br ps lk rb (scanList br ps lk rb st l1) l2 := by
  induction l1 with
  | nil => intro st; simp [scanList]
  | cons t ts ih => intro st; rw [List.cons_append, scanList, scanList, ih]

theorem scan_fail (w : List Trailer)
    (hf : ∀ t ∈ w, isNeogen t = true → lookupOk (lk t.bnum t.bhash) = none) :
    (scan br ps lk rb w).chain = none ∧
    (scan br ps lk rb w).nLookups = w.countP isNeogen := by
  obtain ⟨h1, h2⟩ := @scanList_fail br ps lk rb
    w.reverse ScanState.init (fun t ht => hf t (List.mem_reverse.mp ht)) rfl
  rw [scan]
  refine ⟨h1, ?_⟩
  rw [h2, List.countP_reverse]
  simp [ScanState.init]

theorem scan_first_succ (older newer : List Trailer) (b : Trailer) (a : Nat)
    (hb : b.bnum % 256 = 0)
    (hnewer : ∀ t ∈ newer, isNeogen t = true → lookupOk (lk t.bnum t.bhash) = none)
    (hsucc : lookupOk (lk b.bnum b.bhash) = some a) :
    (scan br ps lk rb (older ++ b :: newer)).chain =
      some ⟨ps none - (ps (some rb) - ((a : Int) + (normalRewardSum br newer : Int))),
            (a : Int) + (normalRewardSum br newer : Int)⟩ ∧
    (scan br ps lk rb (older ++ b :: newer)).nLookups = newer.countP isNeogen + 1 := by
  have hrev : (older ++ b :: newer).reverse = (newer.reverse ++ [b]) ++ older.reverse := by
    simp
  rw [scan, hrev, scanList_append, scanList_append]
  set st1 := scanList br ps lk rb ScanState.init newer.reverse with hst1
  have h1 : st1.chain = none ∧ st1.nLookups = 0 + newer.reverse.countP isNeogen :=
    scanList_fail newer.reverse ScanState.init
      (fun t ht => hnewer t (List.mem_reverse.mp ht)) rfl
  have hacc : st1.acc.rewards = normalRewardSum br newer := by
    rw [hst1, scanList_acc, accOf_reverse]
    simp [ScanState.init, Acc.init_add, accOf]
  have h2 : scanList br ps lk rb st1 [b] =
      { st1 with
        chain := some ⟨ps none - (ps (some rb) - ((a : Int) + (st1.acc.rewards : Int))),
                       (a : Int) + (st1.acc.rewards : Int)⟩
        nLookups := st1.nLookups + 1 } := by
    rw [scanList, scanList]
    exact scanStep_neogen_succ st1 b hb h1.1 hsucc
  rw [h2]
  obtain ⟨h3, h4⟩ := scanList_chain_some older.reverse
    { st1 with
      chain := some ⟨ps none - (ps (some rb) - ((a : Int) + (st1.acc.rewards : Int))),
                     (a : Int) + (st1.acc.rewards : Int)⟩
      nLookups := st1.nLookups + 1 }
    ⟨ps none - (ps (some rb) - ((a : Int) + (st1.acc.rewards : Int))),
     (a : Int) + (st1.acc.rewards : Int)⟩ rfl
  rw [h3, h4]
  refine ⟨by rw [hacc], ?_⟩
  show st1.nLookups + 1 = newer.countP isNeogen + 1
  rw [h1.2, List.countP_reverse]
  omega

theorem countP_neogen_range' : ∀ c s : Nat,
    (List.range' s c).countP (fun n => n % 256 == 0) = (s + c + 255) / 256 - (s + 255) / 256 := by
  intro c
  induction c with
  | zero => intro s; simp
  | succ c ih =>
    intro s
    rw [List.range'_succ, List.countP_cons, ih (s + 1)]
    by_cases h : s % 256 = 0
    · simp only [h, Nat.zero_mod]
      simp
      omega
    · have : (s % 256 == 0) = false := by simp [h]
      rw [this]
      simp
      omega

theorem countP_neogen_range'_le (s c : Nat) :
    (List.range' s c).countP (fun n => n % 256 == 0) ≤ c / 256 + 1 := by
  rw [countP_neogen_range']
  omega

theorem computeStats_some {br : Nat → Nat} {ps : Option Nat → Int}
    {lk : Nat → Nat → LookupResult} {bn : Int} {w : List Trailer}
    {rT : Trailer} {cs : ChainSupply}
    (hlast : w.getLast? = some rT)
    (hguard : bn < 0 ∨ bn = (rT.bnum : Int))
    (hcs : (scan br ps lk rT.bnum w).chain = some cs) :
    computeStats br ps lk bn w = some (mkStats br rT (scan br ps lk rT.bnum w).acc cs) := by
  unfold computeStats computeStatsFull
  simp only [hlast, if_pos hguard, hcs, Option.map_some']

theorem accOf_all_neogen {br : Nat → Nat} {w : List Trailer}
    (h : ∀ t ∈ w, isNeogen t = true) :
    (accOf br w).nonNeogenesis = 0 ∧ (accOf br w).blockTimes = 0 ∧
    (accOf br w).transactions = 0 ∧ (accOf br w).difficulties = 0 ∧
    (accOf br w).pseudorate = 0 := by
  refine ⟨?_, ?_, ?_, ?_, ?_⟩
  · exact List.countP_eq_zero.mpr fun t ht => by simp [h t ht]
  · exact List.sum_eq_zero fun x hx => by
      obtain ⟨t, ht, rfl⟩ := List.mem_map.mp hx
      simp [h t ht]
  · exact List.sum_eq_zero fun x hx => by
      obtain ⟨t, ht, rfl⟩ := List.mem_map.mp hx
      simp [isNormal, h t ht]
  · exact List.sum_eq_zero fun x hx => by
      obtain ⟨t, ht, rfl⟩ := List.mem_map.mp hx
      simp [h t ht]
  · exact List.countP_eq_zero.mpr fun t ht => by simp [isPseudo, h t ht]

end ScanLemmas

/-! ### The claims -/

/-- C5: during the backward scan every record with `position mod 256 ≠ 0`
contributes `1` to `normalTimeCount` (`nonNeogenesis`), its solve duration
to `blockTimeSum` (`blockTimes`) and its difficulty to `difficultySum`
(`difficulties`); a pseudo record additionally contributes only `1` to
`pseudoCount` (`pseudorate`); a normal record additionally contributes its
`tcount` to `transactionSum` (`transactions`), its solve duration to
`hashWeightedTimeSum` (`hashesTimes`), `2 ^ difficulty` to `hashCountSum`
(`hashes`) and `reward(position) + mfee * tcount` to `rewardSum`
(`rewards`); boundary records contribute to none of these sums.  Stated as
closed forms of every accumulator over an arbitrary window. -/
theorem scan_accumulator_closed_form (br : Nat → Nat) (ps : Option Nat → Int)
    (lk : Nat → Nat → LookupResult) (rb : Nat) (w : List Trailer) :
    (scan br ps lk rb w).acc.nonNeogenesis = w.countP (fun t => !isNeogen t) ∧
    (scan br ps lk rb w).acc.blockTimes =
      (w.map fun t => if isNeogen t then 0 else (t.stime : Int) - (t.time0 : Int)).sum ∧
    (scan br ps lk rb w).acc.difficulties =
      (w.map fun t => if isNeogen t then 0 else t.difficulty).sum ∧
    (scan br ps lk rb w).acc.pseudorate = w.countP isPseudo ∧
    (scan br ps lk rb w).acc.transactions =
      (w.map fun t => if isNormal t then t.tcount else 0).sum ∧
    (scan br ps lk rb w).acc.hashesTimes =
      (w.map fun t => if isNormal t then (t.stime : Int) - (t.time0 : Int) else 0).sum ∧
    (scan br ps lk rb w).acc.hashes =
      (w.map fun t => if isNormal t then 2 ^ t.difficulty else 0).sum ∧
    (scan br ps lk rb w).acc.rewards = normalRewardSum br w := by
  rw [scan_acc]
  exact ⟨rfl, rfl, rfl, rfl, rfl, rfl, rfl, rfl⟩

/-- C6 counterexample: for the relative request `p = -10` the Window
Resolver computes `count = 11`, not `|p| = 10` as claimed. -/
theorem relative_count_counterexample :
    resolveWindow (some (-10)) = (11, -10) ∧ resolveWindow (some (-10)) ≠ (10, -10) := by
  decide

/-- C6 amended: for every relative request (negative `p`, the default
being `p = -768` when no position is given) the Window Resolver computes
`count = |p| + 1` and `start = p`; in particular the default request
yields `count = 769`. -/
theorem relative_window_resolution (p : Int) (hp : p < 0) :
    resolveWindow (some p) = (p.natAbs + 1, p) ∧ resolveWindow none = (769, -768) := by
  constructor
  · unfold resolveWindow
    simp only [Option.getD_some]
    rw [if_pos (by omega), if_neg (by omega)]
  · decide

/-- Witness for C6's amended theorem at `p = -10`. -/
theorem relative_window_resolution_witness :
    (-10 : Int) < 0 ∧
    (resolveWindow (some (-10)) = ((-10 : Int).natAbs + 1, -10) ∧
      resolveWindow none = (769, -768)) :=
  ⟨by decide, relative_window_resolution (-10) (by decide)⟩

/-- C7: for an absolute request `p ≥ 0` the Window Resolver computes
`count = p + 1, start = 0` when `p < 768` and `count = 768,
start = p - 767` when `p ≥ 768`; the resolver is total, so no input is
rejected. -/
theorem absolute_window_resolution (p : Int) (hp : 0 ≤ p) :
    (p < 768 → resolveWindow (some p) = (p.toNat + 1, 0)) ∧
    (768 ≤ p → resolveWindow (some p) = (768, p - 767)) := by
  unfold resolveWindow
  simp only [Option.getD_some]
  refine ⟨fun h => ?_, fun h => ?_⟩
  · rw [if_pos (by omega), if_pos (by omega), Prod.mk.injEq]
    exact ⟨by omega, by omega⟩
  · rw [if_neg (by omega), if_pos (by omega), Prod.mk.injEq]
    exact ⟨rfl, by omega⟩

/-- Witness for C7 at `p = 5` (covering the `p < 768` branch) and the
hypothesis `0 ≤ 5`. -/
theorem absolute_window_resolution_witness :
    0 ≤ (5 : Int) ∧
    (((5 : Int) < 768 → resolveWindow (some 5) = ((5 : Int).toNat + 1, 0)) ∧
      (768 ≤ (5 : Int) → resolveWindow (some 5) = (768, 5 - 767))) :=
  ⟨by decide, absolute_window_resolution 5 (by decide)⟩

/-- C2 counterexample: with final projected supply 100, projected supply
40 at every position, and a baseline amount of 10 found at the single
boundary record of the window, the engine computes `maxsupply = 70 =
projectedSupply() - (projectedSupply(latest) - supply)`, while the
claimed formula `projectedSupply(latest) - (projectedSupply() - supply)`
gives `-50`. -/
theorem maxsupply_formula_counterexample :
    Option.map StatsResult.maxsupply (computeStats brFix psFix lkFix (-1) [tNeo]) = some 70 ∧
    Option.map StatsResult.supply (computeStats brFix psFix lkFix (-1) [tNeo]) = some 10 ∧
    (70 : Int) ≠ psFix (some 256) - (psFix none - 10) := by
  refine ⟨by decide, by decide, by decide⟩

/-- C1: when the backward scan's first successful baseline lookup happens
at boundary record `b` (every boundary record strictly newer than `b`
having failed its lookup), the engine sets `supply = baselineAmount +
normalRewardSum br newer`, the sum over normal records strictly newer
than `b` of `reward(bnum) + mfee * tcount`; pseudo and boundary records
newer than `b` contribute nothing to `normalRewardSum` by definition. -/
theorem supply_eq_baseline_plus_newer_rewards (br : Nat → Nat)
    (ps : Option Nat → Int) (lk : Nat → Nat → LookupResult) (bn : Int)
    (older newer : List Trailer) (b rT : Trailer) (a : Nat)
    (hb : b.bnum % 256 = 0)
    (hnewer : ∀ t ∈ newer, isNeogen t = true → lookupOk (lk t.bnum t.bhash) = none)
    (hsucc : lookupOk (lk b.bnum b.bhash) = some a)
    (hlast : (older ++ b :: newer).getLast? = some rT)
    (hguard : bn < 0 ∨ bn = (rT.bnum : Int)) :
    Option.map StatsResult.supply (computeStats br ps lk bn (older ++ b :: newer)) =
      some ((a : Int) + (normalRewardSum br newer : Int)) := by
  have h := @scan_first_succ br ps lk rT.bnum older newer b a hb hnewer hsucc
  rw [computeStats_some hlast hguard h.1]
  simp [mkStats]

/-- Witness for C1: window `[tOld, tNeo, tNorm, tPseudo]` with baseline
amount 10 found at `tNeo`; the supply is `10 + normalRewardSum` of the
two newer records. -/
theorem supply_eq_baseline_plus_newer_rewards_witness :
    tNeo.bnum % 256 = 0 ∧
    (∀ t ∈ [tNorm, tPseudo], isNeogen t = true → lookupOk (lkFix t.bnum t.bhash) = none) ∧
    lookupOk (lkFix tNeo.bnum tNeo.bhash) = some 10 ∧
    ([tOld] ++ tNeo :: [tNorm, tPseudo]).getLast? = some tPseudo ∧
    Option.map StatsResult.supply
        (computeStats brFix psFix lkFix (-1) ([tOld] ++ tNeo :: [tNorm, tPseudo])) =
      some ((10 : Int) + (normalRewardSum brFix [tNorm, tPseudo] : Int)) :=
  ⟨by decide, by decide, by decide, by decide,
   supply_eq_baseline_plus_newer_rewards brFix psFix lkFix (-1)
     [tOld] [tNorm, tPseudo] tNeo tPseudo 10
     (by decide) (by decide) (by decide) (by decide) (Or.inl (by decide))⟩

/-- C2 amended: whenever a baseline lookup succeeds the engine computes
`maxSupply = projectedSupply() - (projectedSupply(latestRecordPosition) -
supply)` (the code computes `lostsupply = projectedSupply(latest) -
supply` and subtracts it from the theoretical final supply), not
`projectedSupply(latest) - (projectedSupply() - supply)` as claimed. -/
theorem maxsupply_eq_projected_minus_lost (br : Nat → Nat)
    (ps : Option Nat → Int) (lk : Nat → Nat → LookupResult) (bn : Int)
    (older newer : List Trailer) (b rT : Trailer) (a : Nat)
    (hb : b.bnum % 256 = 0)
    (hnewer : ∀ t ∈ newer, isNeogen t = true → lookupOk (lk t.bnum t.bhash) = none)
    (hsucc : lookupOk (lk b.bnum b.bhash) = some a)
    (hlast : (older ++ b :: newer).getLast? = some rT)
    (hguard : bn < 0 ∨ bn = (rT.bnum : Int)) :
    Option.map StatsResult.maxsupply (computeStats br ps lk bn (older ++ b :: newer)) =
      some (ps none -
        (ps (some rT.bnum) - ((a : Int) + (normalRewardSum br newer : Int)))) := by
  have h := @scan_first_succ br ps lk rT.bnum older newer b a hb hnewer hsucc
  rw [computeStats_some hlast hguard h.1]
  simp [mkStats]

/-- Witness for C2's amended theorem on the same window as C1's witness. -/
theorem maxsupply_eq_projected_minus_lost_witness :
    tNeo.bnum % 256 = 0 ∧
    (∀ t ∈ [tNorm, tPseudo], isNeogen t = true → lookupOk (lkFix t.bnum t.bhash) = none) ∧
    lookupOk (lkFix tNeo.bnum tNeo.bhash) = some 10 ∧
    ([tOld] ++ tNeo :: [tNorm, tPseudo]).getLast? = some tPseudo ∧
    Option.map StatsResult.maxsupply
        (computeStats brFix psFix lkFix (-1) ([tOld] ++ tNeo :: [tNorm, tPseudo])) =
      some (psFix none -
        (psFix (some tPseudo.bnum) - ((10 : Int) + (normalRewardSum brFix [tNorm, tPseudo] : Int)))) :=
  ⟨by decide, by decide, by decide, by decide,
   maxsupply_eq_projected_minus_lost brFix psFix lkFix (-1)
     [tOld] [tNorm, tPseudo] tNeo tPseudo 10
     (by decide) (by decide) (by decide) (by decide) (Or.inl (by decide))⟩

/-- C4: for an absolute request `bn ≥ 0` whose window's newest record has
a different block number, the engine reports `Unavailable` immediately,
scanning nothing and performing no baseline lookup (the result pair is
`(none, 0)`); a relative (negative) request is exempt from the check, the
scan running regardless of the newest record's block number. -/
theorem absolute_mismatch_unavailable (br : Nat → Nat) (ps : Option Nat → Int)
    (lk : Nat → Nat → LookupResult) (bn bn' : Int) (w : List Trailer) (rT : Trailer)
    (hp : 0 ≤ bn) (hlast : w.getLast? = some rT) (hne : (rT.bnum : Int) ≠ bn)
    (hbn' : bn' < 0) :
    computeStatsFull br ps lk bn w = (none, 0) ∧
    (computeStatsFull br ps lk bn' w).2 = (scan br ps lk rT.bnum w).nLookups := by
  constructor
  · unfold computeStatsFull
    simp only [hlast]
    rw [if_neg (by push_neg; exact ⟨by omega, Ne.symm hne⟩)]
  · unfold computeStatsFull
    simp only [hlast]
    rw [if_pos (Or.inl hbn')]

/-- Witness for C4 at absolute request 5 against a window ending at
block 256, and relative request -1. -/
theorem absolute_mismatch_unavailable_witness :
    0 ≤ (5 : Int) ∧ [tNeo].getLast? = some tNeo ∧ ((tNeo.bnum : Int) ≠ 5) ∧
    (-1 : Int) < 0 ∧
    (computeStatsFull brFix psFix lkFix 5 [tNeo] = (none, 0) ∧
      (computeStatsFull brFix psFix lkFix (-1) [tNeo]).2 =
        (scan brFix psFix lkFix tNeo.bnum [tNeo]).nLookups) :=
  ⟨by decide, by decide, by decide, by decide,
   absolute_mismatch_unavailable brFix psFix lkFix 5 (-1) [tNeo] tNeo
     (by decide) (by decide) (by decide) (by decide)⟩

/-- C3: for a window over consecutive positions in which every boundary
lookup fails, the engine returns `Unavailable`; the scan performs exactly
one lookup attempt per boundary record encountered, hence at most
`count / 256 + 1` attempts; and a window containing no boundary record
returns `Unavailable` without attempting any lookup (the scan being a
total function, it cannot crash). -/
theorem window_exhausted_unavailable (br : Nat → Nat) (ps : Option Nat → Int)
    (lk : Nat → Nat → LookupResult) (rb : Nat) (bn : Int)
    (w : List Trailer) (s c : Nat)
    (hfail : ∀ t ∈ w, isNeogen t = true → lookupOk (lk t.bnum t.bhash) = none)
    (hpos : w.map Trailer.bnum = List.range' s c) :
    computeStats br ps lk bn w = none ∧
    (scan br ps lk rb w).nLookups = w.countP isNeogen ∧
    (scan br ps lk rb w).nLookups ≤ c / 256 + 1 ∧
    ((∀ t ∈ w, isNeogen t = false) → (scan br ps lk rb w).nLookups = 0) := by
  have hck : ∀ rb' : Nat, (scan br ps lk rb' w).chain = none ∧
      (scan br ps lk rb' w).nLookups = w.countP isNeogen :=
    fun rb' => @scan_fail br ps lk rb' w hfail
  have hcount : w.countP isNeogen = (List.range' s c).countP (fun n => n % 256 == 0) := by
    rw [← hpos, List.countP_map]
    rfl
  refine ⟨?_, (hck rb).2, ?_, ?_⟩
  · unfold computeStats computeStatsFull
    rcases hg : w.getLast? with _ | rT
    · rfl
    · simp only [hg]
      split
      · simp [(hck rT.bnum).1]
      · rfl
  · rw [(hck rb).2, hcount]
    exact countP_neogen_range'_le s c
  · intro hno
    rw [(hck rb).2]
    exact List.countP_eq_zero.mpr fun t ht => by simp [hno t ht]

/-- Witness for C3: the consecutive window at blocks 254-256 with a
Baseline Store in which every lookup fails. -/
theorem window_exhausted_unavailable_witness :
    (∀ t ∈ [t254, t255, t256], isNeogen t = true → lookupOk (lkNone t.bnum t.bhash) = none) ∧
    ([t254, t255, t256].map Trailer.bnum = List.range' 254 3) ∧
    (computeStats brFix psFix lkNone (-1) [t254, t255, t256] = none ∧
      (scan brFix psFix lkNone 256 [t254, t255, t256]).nLookups =
        [t254, t255, t256].countP isNeogen ∧
      (scan brFix psFix lkNone 256 [t254, t255, t256]).nLookups ≤ 3 / 256 + 1 ∧
      ((∀ t ∈ [t254, t255, t256], isNeogen t = false) →
        (scan brFix psFix lkNone 256 [t254, t255, t256]).nLookups = 0)) :=
  ⟨by decide, by decide,
   window_exhausted_unavailable brFix psFix lkNone 256 (-1) [t254, t255, t256] 254 3
     (by decide) (by decide)⟩

/-- C9: a baseline lookup that finds no record, or a record without an
`amount` field, or a record whose amount is exactly 0, is treated as
failed: the scan state is unchanged apart from the attempt counter
(`supply`/`chain` stay undefined) and the scan continues, so a window in
which every boundary's stored amount is absent or zero yields no supply
(`chain = none`). -/
theorem zero_or_missing_baseline_fails (br : Nat → Nat) (ps : Option Nat → Int)
    (lk : Nat → Nat → LookupResult) (rb : Nat) (w : List Trailer)
    (hfail : ∀ t ∈ w, isNeogen t = true →
      (lk t.bnum t.bhash = none ∨ lk t.bnum t.bhash = some none ∨
        lk t.bnum t.bhash = some (some 0))) :
    (scan br ps lk rb w).chain = none ∧
    (∀ st : ScanState, ∀ b : Trailer, b ∈ w → isNeogen b = true → st.chain = none →
      scanStep br ps lk rb st b = { st with nLookups := st.nLookups + 1 }) := by
  have hf : ∀ t ∈ w, isNeogen t = true → lookupOk (lk t.bnum t.bhash) = none :=
    fun t ht hn => (lookupOk_eq_none_iff _).mpr (hfail t ht hn)
  refine ⟨(scan_fail w hf).1, fun st b hbw hbn hc => ?_⟩
  exact scanStep_neogen_fail st b (by simpa [isNeogen] using hbn) hc (hf b hbw hbn)

/-- Witness for C9: a store holding a zero amount at the boundary key. -/
theorem zero_or_missing_baseline_fails_witness :
    (∀ t ∈ [t256], isNeogen t = true →
      ((fun _ _ => (some (some 0) : LookupResult)) t.bnum t.bhash = none ∨
        (fun _ _ => (some (some 0) : LookupResult)) t.bnum t.bhash = some none ∨
        (fun _ _ => (some (some 0) : LookupResult)) t.bnum t.bhash = some (some 0))) ∧
    ((scan brFix psFix (fun _ _ => some (some 0)) 256 [t256]).chain = none ∧
      (∀ st : ScanState, ∀ b : Trailer, b ∈ [t256] → isNeogen b = true → st.chain = none →
        scanStep brFix psFix (fun _ _ => some (some 0)) 256 st b =
          { st with nLookups := st.nLookups + 1 })) :=
  ⟨by decide,
   zero_or_missing_baseline_fails brFix psFix (fun _ _ => some (some 0)) 256 [t256]
     (by decide)⟩

/-- C10: the backward scan always visits every record of the window: once
the baseline is resolved at boundary `b`, no further lookup is attempted
(the attempt count is exactly one per boundary newer than `b`, plus the
successful one), yet accumulation continues over the records older than
`b`, so the final accumulator equals the closed form over the entire
window and every averaged metric of the result is computed from the
full-window accumulators. -/
theorem full_window_accumulation (br : Nat → Nat) (ps : Option Nat → Int)
    (lk : Nat → Nat → LookupResult) (bn : Int)
    (older newer : List Trailer) (b rT : Trailer) (a : Nat)
    (hb : b.bnum % 256 = 0)
    (hnewer : ∀ t ∈ newer, isNeogen t = true → lookupOk (lk t.bnum t.bhash) = none)
    (hsucc : lookupOk (lk b.bnum b.bhash) = some a)
    (hlast : (older ++ b :: newer).getLast? = some rT)
    (hguard : bn < 0 ∨ bn = (rT.bnum : Int)) :
    (scan br ps lk rT.bnum (older ++ b :: newer)).acc = accOf br (older ++ b :: newer) ∧
    (scan br ps lk rT.bnum (older ++ b :: newer)).nLookups = newer.countP isNeogen + 1 ∧
    Option.map StatsResult.blocktime_avg (computeStats br ps lk bn (older ++ b :: newer)) =
      some (jsRound (jsDivQ ((accOf br (older ++ b :: newer)).blockTimes : ℚ)
        ((accOf br (older ++ b :: newer)).nonNeogenesis : ℚ))) ∧
    Option.map StatsResult.tcount_avg (computeStats br ps lk bn (older ++ b :: newer)) =
      some (jsRound (jsDivQ ((accOf br (older ++ b :: newer)).transactions : ℚ)
        ((accOf br (older ++ b :: newer)).nonNeogenesis : ℚ))) ∧
    Option.map StatsResult.tcountpsec_avg (computeStats br ps lk bn (older ++ b :: newer)) =
      some (jsRound (jsDivQ ((accOf br (older ++ b :: newer)).transactions : ℚ)
        ((accOf br (older ++ b :: newer)).blockTimes : ℚ))) ∧
    Option.map StatsResult.difficulty_avg (computeStats br ps lk bn (older ++ b :: newer)) =
      some (jsRound (jsDivQ ((accOf br (older ++ b :: newer)).difficulties : ℚ)
        ((accOf br (older ++ b :: newer)).nonNeogenesis : ℚ))) ∧
    Option.map StatsResult.hashrate_avg (computeStats br ps lk bn (older ++ b :: newer)) =
      some (jsRound (jsDivQ ((accOf br (older ++ b :: newer)).hashes : ℚ)
        ((accOf br (older ++ b :: newer)).hashesTimes : ℚ))) ∧
    Option.map StatsResult.pseudorate_avg (computeStats br ps lk bn (older ++ b :: newer)) =
      some (jsRound (jsDivQ ((accOf br (older ++ b :: newer)).pseudorate : ℚ)
        ((accOf br (older ++ b :: newer)).nonNeogenesis : ℚ))) := by
  have h := @scan_first_succ br ps lk rT.bnum older newer b a hb hnewer hsucc
  have hcs := computeStats_some hlast hguard h.1
  have hacc := @scan_acc br ps lk rT.bnum (older ++ b :: newer)
  refine ⟨hacc, h.2, ?_, ?_, ?_, ?_, ?_, ?_⟩ <;>
    rw [hcs, Option.map_some'] <;> simp [mkStats, hacc]

/-- Witness for C10 on the window `[tOld, tNeo, tNorm, tPseudo]`. -/
theorem full_window_accumulation_witness :
    tNeo.bnum % 256 = 0 ∧
    (∀ t ∈ [tNorm, tPseudo], isNeogen t = true → lookupOk (lkFix t.bnum t.bhash) = none) ∧
    lookupOk (lkFix tNeo.bnum tNeo.bhash) = some 10 ∧
    ([tOld] ++ tNeo :: [tNorm, tPseudo]).getLast? = some tPseudo ∧
    ((scan brFix psFix lkFix tPseudo.bnum ([tOld] ++ tNeo :: [tNorm, tPseudo])).acc =
        accOf brFix ([tOld] ++ tNeo :: [tNorm, tPseudo]) ∧
      (scan brFix psFix lkFix tPseudo.bnum ([tOld] ++ tNeo :: [tNorm, tPseudo])).nLookups =
        [tNorm, tPseudo].countP isNeogen + 1 ∧
      Option.map StatsResult.blocktime_avg
          (computeStats brFix psFix lkFix (-1) ([tOld] ++ tNeo :: [tNorm, tPseudo])) =
        some (jsRound (jsDivQ ((accOf brFix ([tOld] ++ tNeo :: [tNorm, tPseudo])).blockTimes : ℚ)
          ((accOf brFix ([tOld] ++ tNeo :: [tNorm, tPseudo])).nonNeogenesis : ℚ))) ∧
      Option.map StatsResult.tcount_avg
          (computeStats brFix psFix lkFix (-1) ([tOld] ++ tNeo :: [tNorm, tPseudo])) =
        some (jsRound (jsDivQ ((accOf brFix ([tOld] ++ tNeo :: [tNorm, tPseudo])).transactions : ℚ)
          ((accOf brFix ([tOld] ++ tNeo :: [tNorm, tPseudo])).nonNeogenesis : ℚ))) ∧
      Option.map StatsResult.tcountpsec_avg
          (computeStats brFix psFix lkFix (-1) ([tOld] ++ tNeo :: [tNorm, tPseudo])) =
        some (jsRound (jsDivQ ((accOf brFix ([tOld] ++ tNeo :: [tNorm, tPseudo])).transactions : ℚ)
          ((accOf brFix ([tOld] ++ tNeo :: [tNorm, tPseudo])).blockTimes : ℚ))) ∧
      Option.map StatsResult.difficulty_avg
          (computeStats brFix psFix lkFix (-1) ([tOld] ++ tNeo :: [tNorm, tPseudo])) =
        some (jsRound (jsDivQ ((accOf brFix ([tOld] ++ tNeo :: [tNorm, tPseudo])).difficulties : ℚ)
          ((accOf brFix ([tOld] ++ tNeo :: [tNorm, tPseudo])).nonNeogenesis : ℚ))) ∧
      Option.map StatsResult.hashrate_avg
          (computeStats brFix psFix lkFix (-1) ([tOld] ++ tNeo :: [tNorm, tPseudo])) =
        some (jsRound (jsDivQ ((accOf brFix ([tOld] ++ tNeo :: [tNorm, tPseudo])).hashes : ℚ)
          ((accOf brFix ([tOld] ++ tNeo :: [tNorm, tPseudo])).hashesTimes : ℚ))) ∧
      Option.map StatsResult.pseudorate_avg
          (computeStats brFix psFix lkFix (-1) ([tOld] ++ tNeo :: [tNorm, tPseudo])) =
        some (jsRound (jsDivQ ((accOf brFix ([tOld] ++ tNeo :: [tNorm, tPseudo])).pseudorate : ℚ)
          ((accOf brFix ([tOld] ++ tNeo :: [tNorm, tPseudo])).nonNeogenesis : ℚ)))) :=
  ⟨by decide, by decide, by decide, by decide,
   full_window_accumulation brFix psFix lkFix (-1)
     [tOld] [tNorm, tPseudo] tNeo tPseudo 10
     (by decide) (by decide) (by decide) (by decide) (Or.inl (by decide))⟩

/-- C8: for a window whose scan succeeds and whose target block's
computed `blocktime` is zero (in particular an epoch-boundary target),
the `tcountpsec` (txThroughput) division is evaluated unguarded and
totally: the engine returns the value of the zero-denominator division
(NaN for a zero transaction count, positive infinity otherwise) rather
than raising; likewise, when every record of the window is a boundary
(`normalTimeCount == 0`), the averaged metrics are the NaN produced by
the 0/0 divisions. -/
theorem zero_blocktime_division_total (br : Nat → Nat) (ps : Option Nat → Int)
    (lk : Nat → Nat → LookupResult) (bn : Int) (w : List Trailer)
    (rT : Trailer) (cs : ChainSupply)
    (hlast : w.getLast? = some rT)
    (hguard : bn < 0 ∨ bn = (rT.bnum : Int))
    (hcs : (scan br ps lk rT.bnum w).chain = some cs)
    (hbt : isNeogen rT = true ∨ (rT.stime : Int) - (rT.time0 : Int) = 0) :
    Option.map StatsResult.tcountpsec (computeStats br ps lk bn w) =
      some (if rT.tcount = 0 then JSNum.nan else JSNum.inf) ∧
    ((∀ t ∈ w, isNeogen t = true) →
      Option.map StatsResult.blocktime_avg (computeStats br ps lk bn w) = some JSNum.nan ∧
      Option.map StatsResult.tcount_avg (computeStats br ps lk bn w) = some JSNum.nan ∧
      Option.map StatsResult.difficulty_avg (computeStats br ps lk bn w) = some JSNum.nan ∧
      Option.map StatsResult.pseudorate_avg (computeStats br ps lk bn w) = some JSNum.nan) := by
  have hstats := computeStats_some hlast hguard hcs
  have hbt0 : (if (rT.bnum % 256 == 0 : Bool) then (0 : Int)
      else (rT.stime : Int) - (rT.time0 : Int)) = 0 := by
    rcases hbt with h | h
    · rw [if_pos (by simpa [isNeogen] using h)]
    · by_cases hb : (rT.bnum % 256 == 0 : Bool)
      · rw [if_pos hb]
      · rw [if_neg hb, h]
  constructor
  · rw [hstats, Option.map_some']
    have hproj : (mkStats br rT (scan br ps lk rT.bnum w).acc cs).tcountpsec =
        jsRound (jsDivQ (rT.tcount : ℚ)
          (((if (rT.bnum % 256 == 0 : Bool) then (0 : Int)
            else (rT.stime : Int) - (rT.time0 : Int)) : Int) : ℚ)) := rfl
    rw [hproj, hbt0]
    by_cases ht : rT.tcount = 0
    · simp [ht, jsDivQ, jsRound]
    · have hpos : (0 : ℚ) < (rT.tcount : ℚ) := by
        exact_mod_cast Nat.pos_of_ne_zero ht
      simp [jsDivQ, jsRound, ht, hpos]
  · intro hall
    obtain ⟨h1, h2, h3, h4, h5⟩ := @accOf_all_neogen br w hall
    have hacc := @scan_acc br ps lk rT.bnum w
    refine ⟨?_, ?_, ?_, ?_⟩ <;> rw [hstats, Option.map_some'] <;>
      simp [mkStats, hacc, h1, h2, h3, h4, h5, jsDivQ, jsRound]

/-- Witness for C8: the single-boundary window `[tNeo]`, whose baseline
lookup succeeds; the boundary target has zero transactions, so the
throughput division is `0 / 0 = NaN`, and the window has no non-boundary
record, so every averaged metric is NaN. -/
theorem zero_blocktime_division_total_witness :
    [tNeo].getLast? = some tNeo ∧
    (scan brFix psFix lkFix tNeo.bnum [tNeo]).chain = some ⟨70, 10⟩ ∧
    isNeogen tNeo = true ∧
    (Option.map StatsResult.tcountpsec (computeStats brFix psFix lkFix (-1) [tNeo]) =
        some (if tNeo.tcount = 0 then JSNum.nan else JSNum.inf) ∧
      ((∀ t ∈ [tNeo], isNeogen t = true) →
        Option.map StatsResult.blocktime_avg (computeStats brFix psFix lkFix (-1) [tNeo]) =
          some JSNum.nan ∧
        Option.map StatsResult.tcount_avg (computeStats brFix psFix lkFix (-1) [tNeo]) =
          some JSNum.nan ∧
        Option.map StatsResult.difficulty_avg (computeStats brFix psFix lkFix (-1) [tNeo]) =
          some JSNum.nan ∧
        Option.map StatsResult.pseudorate_avg (computeStats brFix psFix lkFix (-1) [tNeo]) =
          some JSNum.nan)) :=
  ⟨by decide, by decide, by decide,
   zero_blocktime_division_total brFix psFix lkFix (-1) [tNeo] tNeo ⟨70, 10⟩
     (by decide) (Or.inl (by decide)) (by decide) (Or.inl (by decide))⟩

end Mochimap
